import Mathlib

set_option maxRecDepth 100000

/-!
Verification of the rule application engine of `llm-connector`:
the structural rewriter `fix_message_construction` (scripts/fix_message_construction.py)
and the lexical rewriter `translate_line` / `translate_file`
(scripts/translate_rust_comments.py), shallowly embedded over `List Char`
(the character sequence of a Python `str`).
-/

/-- Python regex `\s` on `str` (whitespace characters relevant here; Python
additionally treats a few other rare Unicode separators as `\s`, none of which
occur in the corpus or in any statement below). -/
def isPySpace (c : Char) : Bool :=
  (0x09 ≤ c.toNat && c.toNat ≤ 0x0d) || c.toNat == 0x20 ||
  (0x1c ≤ c.toNat && c.toNat ≤ 0x1f) || c.toNat == 0x85 || c.toNat == 0xa0 ||
  c.toNat == 0x1680 || (0x2000 ≤ c.toNat && c.toNat ≤ 0x200a) ||
  c.toNat == 0x2028 || c.toNat == 0x2029 || c.toNat == 0x202f ||
  c.toNat == 0x205f || c.toNat == 0x3000

/-- Python regex `\w` on `str` (ASCII word characters plus the CJK unified
ideographs appearing in this repository; Python additionally accepts other
Unicode letter categories, none of which occur in the corpus or in any
statement below). -/
def isPyWord (c : Char) : Bool :=
  (0x61 ≤ c.toNat && c.toNat ≤ 0x7a) || (0x41 ≤ c.toNat && c.toNat ≤ 0x5a) ||
  (0x30 ≤ c.toNat && c.toNat ≤ 0x39) || c.toNat == 0x5f ||
  (0x4e00 ≤ c.toNat && c.toNat ≤ 0x9fff)

/-- Python `key in s` (substring containment test). -/
def containsSub (key : List Char) : List Char → Bool
  | [] => key.isEmpty
  | c :: t => key.isPrefixOf (c :: t) || containsSub key t

/-- Python `s.replace(key, val)` (leftmost, non-overlapping), with explicit
fuel to keep the recursion structural; `pyReplace` below supplies enough fuel. -/
def pyReplaceF (key val : List Char) : Nat → List Char → List Char
  | 0, s => s
  | _ + 1, [] => if key.isEmpty then val else []
  | f + 1, c :: t =>
    if key.isEmpty then val ++ c :: pyReplaceF key val f t
    else if key.isPrefixOf (c :: t) then
      val ++ pyReplaceF key val f ((c :: t).drop key.length)
    else c :: pyReplaceF key val f t

/-- Python `s.replace(key, val)`. -/
def pyReplace (key val s : List Char) : List Char :=
  pyReplaceF key val (s.length + 1) s

/-- One iteration of the loop body of `translate_line`:
`if chinese in line: line = line.replace(chinese, english)`. -/
def applyEntry (line : List Char) (kv : List Char × List Char) : List Char :=
  if containsSub kv.1 line then pyReplace kv.1 kv.2 line else line

/-- The `for chinese, english in table.items()` loop of `translate_line`,
generalized over the (ordered) table. -/
def applyTable (table : List (List Char × List Char)) (line : List Char) : List Char :=
  table.foldl applyEntry line
def TRANSLATIONS : List (List Char × List Char) :=
  [
    (("V2统一客户端 - 下一代LLM客户端接口").data, ("V2 Unified Client - Next-generation LLM client interface").data),
    (("这个模块提供统一的客户端接口，支持所有LLM服务提供商").data, ("This module provides a unified client interface supporting all LLM service providers").data),
    (("统一LLM客户端").data, ("Unified LLM Client").data),
    (("这个客户端提供统一的接口来访问各种LLM服务").data, ("This client provides a unified interface to access various LLM services").data),
    (("使用V2架构的清晰抽象层").data, ("using V2 architecture\x27s clean abstraction layer").data),
    (("示例").data, ("Example").data),
    (("参数").data, ("Parameters").data),
    (("返回").data, ("return").data),
    (("错误").data, ("error").data),
    (("阿里云DashScope").data, ("Aliyun DashScope").data),
    (("智谱GLM").data, ("Zhipu GLM").data),
    (("火山引擎").data, ("Volcengine").data),
    (("腾讯云混元").data, ("Tencent Hunyuan").data),
    (("月之暗面").data, ("Moonshot").data),
    (("从任何Provider创建客户端").data, ("Create client from any Provider").data),
    (("创建OpenAI客户端").data, ("Create OpenAI client").data),
    (("创建带有自定义基础URL的OpenAI客户端").data, ("Create OpenAI client with custom base URL").data),
    (("创建Azure OpenAI客户端").data, ("Create Azure OpenAI client").data),
    (("创建阿里云DashScope客户端").data, ("Create Aliyun DashScope client").data),
    (("创建Anthropic Claude客户端").data, ("Create Anthropic Claude client").data),
    (("创建智谱GLM客户端").data, ("Create Zhipu GLM client").data),
    (("创建智谱GLM客户端 (OpenAI兼容模式)").data, ("Create Zhipu GLM client (OpenAI compatible mode)").data),
    (("创建Ollama客户端 (默认本地地址)").data, ("Create Ollama client (default local address)").data),
    (("创建带有自定义URL的Ollama客户端").data, ("Create Ollama client with custom URL").data),
    (("创建OpenAI兼容服务客户端").data, ("Create OpenAI-compatible service client").data),
    (("创建LongCat Anthropic格式客户端").data, ("Create LongCat Anthropic format client").data),
    (("创建带有自定义配置的LongCat Anthropic客户端").data, ("Create LongCat Anthropic client with custom configuration").data),
    (("创建火山引擎（Volcengine）客户端").data, ("Create Volcengine client").data),
    (("创建带有自定义配置的火山引擎客户端").data, ("Create Volcengine client with custom configuration").data),
    (("创建腾讯云混元（Tencent Hunyuan）客户端").data, ("Create Tencent Hunyuan client").data),
    (("创建带有自定义配置的腾讯云混元客户端").data, ("Create Tencent Hunyuan client with custom configuration").data),
    (("创建 Moonshot（月之暗面）客户端").data, ("Create Moonshot client").data),
    (("创建带有自定义配置的 Moonshot 客户端").data, ("Create Moonshot client with custom configuration").data),
    (("创建 DeepSeek 客户端").data, ("Create DeepSeek client").data),
    (("创建带有自定义配置的 DeepSeek 客户端").data, ("Create DeepSeek client with custom configuration").data),
    (("高级构造函数 - 自定义配置").data, ("Advanced Constructors - Custom Configuration").data),
    (("创建带有自定义配置的OpenAI客户端").data, ("Create OpenAI client with custom configuration").data),
    (("创建带有自定义配置的Aliyun客户端").data, ("Create Aliyun client with custom configuration").data),
    (("创建Aliyun国际版客户端").data, ("Create Aliyun international client").data),
    (("创建Aliyun专有云客户端").data, ("Create Aliyun private cloud client").data),
    (("创建带有自定义超时的Aliyun客户端").data, ("Create Aliyun client with custom timeout").data),
    (("创建带有自定义配置的Anthropic客户端").data, ("Create Anthropic client with custom configuration").data),
    (("创建Anthropic Vertex AI客户端").data, ("Create Anthropic Vertex AI client").data),
    (("创建Anthropic AWS Bedrock客户端").data, ("Create Anthropic AWS Bedrock client").data),
    (("创建带有自定义超时的Anthropic客户端").data, ("Create Anthropic client with custom timeout").data),
    (("创建带有自定义配置的Zhipu客户端").data, ("Create Zhipu client with custom configuration").data),
    (("创建带有自定义超时的Zhipu客户端").data, ("Create Zhipu client with custom timeout").data),
    (("创建Zhipu企业版客户端").data, ("Create Zhipu enterprise client").data),
    (("创建带有自定义配置的Ollama客户端").data, ("Create Ollama client with custom configuration").data),
    (("获取提供商名称").data, ("Get provider name").data),
    (("发送聊天完成请求").data, ("Send chat completion request").data),
    (("发送流式聊天完成请求").data, ("Send streaming chat completion request").data),
    (("获取可用模型列表").data, ("Get available models list").data),
    (("获取底层提供商的引用 (用于特殊功能访问)").data, ("Get reference to underlying provider (for special feature access)").data),
    (("类型安全的Provider转换方法").data, ("Type-safe Provider conversion methods").data),
    (("尝试将客户端转换为OllamaProvider").data, ("Try to convert client to OllamaProvider").data),
    (("OpenAI API密钥").data, ("OpenAI API key").data),
    (("API密钥").data, ("API key").data),
    (("自定义基础URL").data, ("Custom base URL").data),
    (("Azure OpenAI API密钥").data, ("Azure OpenAI API key").data),
    (("Azure OpenAI端点").data, ("Azure OpenAI endpoint").data),
    (("API版本").data, ("API version").data),
    (("Anthropic API密钥 (格式: sk-ant-...)").data, ("Anthropic API key (format: sk-ant-...)").data),
    (("服务基础URL").data, ("Service base URL").data),
    (("服务名称").data, ("Service name").data),
    (("Ollama服务的URL").data, ("Ollama service URL").data),
    (("聊天请求").data, ("Chat request").data),
    (("聊天响应").data, ("Chat response").data),
    (("聊天流").data, ("Chat stream").data),
    (("模型名称列表").data, ("List of model names").data),
    (("如果底层Provider是OllamaProvider，返回Some引用，否则返回None").data, ("Returns Some reference if underlying Provider is OllamaProvider, otherwise None").data),
    (("可以进行类型转换以访问特定提供商的功能").data, ("Can perform type conversion to access provider-specific features").data),
    (("创建请求").data, ("Create request").data),
    (("发送请求").data, ("Send request").data),
    (("创建").data, ("Create").data),
    (("获取").data, ("Get").data),
    (("设置").data, ("Set").data),
    (("检查").data, ("Check").data),
    (("验证").data, ("Validate").data),
    (("转换").data, ("Convert").data),
    (("解析").data, ("Parse").data),
    (("构建").data, ("Build").data),
    (("初始化").data, ("Initialize").data),
    (("火山引擎使用 OpenAI 兼容的 API 格式，但端点路径不同").data, ("Volcengine uses OpenAI-compatible API format, but with different endpoint paths").data),
    (("腾讯云混元使用 OpenAI 兼容的 API 格式").data, ("Tencent Hunyuan uses OpenAI-compatible API format").data),
    (("Moonshot 使用 OpenAI 兼容的 API 格式").data, ("Moonshot uses OpenAI-compatible API format").data),
    (("DeepSeek 使用 OpenAI 兼容的 API 格式，支持推理模型").data, ("DeepSeek uses OpenAI-compatible API format, supports reasoning models").data),
    (("LongCat的Anthropic端点使用Bearer认证而不是标准的x-api-key认证").data, ("LongCat\x27s Anthropic endpoint uses Bearer authentication instead of standard x-api-key authentication").data),
    (("支持多模态内容，包括文本、图片等").data, ("Supports multi-modal content including text, images, etc.").data),
    (("一条消息可以包含多个内容块，支持文本、图片等多模态内容").data, ("A message can contain multiple content blocks, supporting multi-modal content like text, images, etc.").data),
    (("可配置的协议适配器 - 配置驱动的抽象").data, ("Configurable Protocol Adapter - Configuration-driven abstraction").data),
    (("这个模块提供了一个通用的协议适配器，通过配置来定制行为，").data, ("This module provides a generic protocol adapter that customizes behavior through configuration,").data),
    (("可配置的协议适配器").data, ("Configurable Protocol Adapter").data),
    (("包装一个基础协议，通过配置来修改其行为（端点路径、认证方式等）。").data, ("Wraps a base protocol and modifies its behavior through configuration (endpoint paths, authentication methods, etc.).").data),
    (("协议配置").data, ("Protocol Configuration").data),
    (("定义协议的静态配置，包括名称、端点、认证方式等。").data, ("Defines static configuration for the protocol, including name, endpoints, authentication methods, etc.").data),
    (("端点配置").data, ("Endpoint Configuration").data),
    (("定义 API 端点的路径模板，支持 `\x7bbase_url\x7d` 变量替换。").data, ("Defines API endpoint path templates, supporting `\x7bbase_url\x7d` variable substitution.").data),
    (("支持变量: `\x7bbase_url\x7d`").data, ("Supports variable: `\x7bbase_url\x7d`").data),
    (("认证配置").data, ("Authentication Configuration").data),
    (("定义如何处理 API 认证。").data, ("Defines how to handle API authentication.").data),
    (("Create新的可配置协议适配器").data, ("Create new configurable protocol adapter").data),
    (("Create一个使用标准 OpenAI 端点和 Bearer 认证的配置。").data, ("Create a configuration using standard OpenAI endpoints and Bearer authentication.").data),
    (("提供统一的HTTP通信层，支持标准请求和流式请求。").data, ("Provides unified HTTP communication layer, supporting standard and streaming requests.").data),
    (("封装了HTTP通信的所有细节，包括认证、超时、代理等配置。").data, ("Encapsulates all HTTP communication details, including authentication, timeout, proxy configuration, etc.").data),
    (("支持").data, ("Support").data),
    (("包含").data, ("Contains").data),
    (("定义").data, ("Define").data),
    (("提供").data, ("Provide").data),
    (("使用").data, ("Use").data),
    (("通过").data, ("Through").data),
    (("包括").data, ("Including").data),
    (("等").data, ("etc.").data),
    (("协议名称").data, ("Protocol name").data),
    (("模型列表端点模板（可选）").data, ("Model list endpoint template (optional)").data),
    (("基础协议实例").data, ("Base protocol instance").data),
    (("便捷构造器 - OpenAI 兼容协议").data, ("Convenience constructor - OpenAI compatible protocol").data),
    (("从内部协议提取 token").data, ("Extract token from internal protocol").data),
    (("这是一个辅助方法，用于从内部协议的认证头中提取 token。").data, ("This is a helper method to extract token from the internal protocol\x27s authentication headers.").data),
    (("HTTP客户端实现 - V2架构").data, ("HTTP Client Implementation - V2 Architecture").data),
    (("HTTP客户端").data, ("HTTP Client").data),
    (("Create新的HTTP客户端").data, ("Create new HTTP client").data),
    (("Create带有自Define配置的HTTP客户端").data, ("Create HTTP client with custom configuration").data),
    (("添加请求头").data, ("Add request headers").data),
    (("添加单个请求头").data, ("Add single request header").data),
    (("发送GET请求").data, ("Send GET request").data),
    (("添加所有配置的请求头").data, ("Add all configured request headers").data),
    (("发送POST请求").data, ("Send POST request").data),
    (("发送流式POST请求").data, ("Send streaming POST request").data),
    (("发送带有自Define头的POST请求").data, ("Send POST request with custom headers").data),
    (("再添加配置的请求头 (可能会覆盖自Define头)").data, ("Then add configured headers (may override custom headers)").data),
    (("HTTP客户端实现").data, ("HTTP client implementation").data),
    (("协议trait - Define纯API规范").data, ("Protocol trait - Defines pure API specification").data),
    (("这个trait代表一个LLM API的协议规范，如OpenAI API、Anthropic APIetc.。").data, ("This trait represents an LLM API protocol specification, such as OpenAI API, Anthropic API, etc.").data),
    (("协议特定的请求类型").data, ("Protocol-specific request type").data),
    (("协议特定的响应类型").data, ("Protocol-specific response type").data),
    (("协议名称 (如 \"openai\", \"anthropic\")").data, ("Protocol name (e.g., \"openai\", \"anthropic\")").data),
    (("Get模型列表的端点URL (可选)").data, ("Get model list endpoint URL (optional)").data),
    (("Build协议特定的请求").data, ("Build protocol-specific request").data),
    (("Parse协议特定的响应").data, ("Parse protocol-specific response").data),
    (("Parse模型列表响应").data, ("Parse model list response").data),
    (("Parse流式响应 (可选)").data, ("Parse streaming response (optional)").data),
    (("流式聊天完成").data, ("Streaming chat completion").data),
    (("Get协议引用").data, ("Get protocol reference").data),
    (("Get客户端引用").data, ("Get client reference").data),
    (("Parse响应").data, ("Parse response").data),
    (("Provide链式调用的 API 来Build Provider，统一处理所有配置项。").data, ("Provides fluent API to build Provider, handling all configuration items uniformly.").data),
    (("协议实例").data, ("Protocol instance").data),
    (("注意：这些头部会与协议的认证头部合并。").data, ("Note: These headers will be merged with the protocol\x27s authentication headers.").data),
    (("配置好的 GenericProvider 实例").data, ("Configured GenericProvider instance").data),
    (("如果 HTTP 客户端Create失败，ReturnsErrors").data, ("Returns error if HTTP client creation fails").data),
    (("Create HTTP 客户端").data, ("Create HTTP client").data),
    (("CreateAliyun DashScope客户端").data, ("Create Aliyun DashScope client").data),
    (("CreateZhipu GLM客户端").data, ("Create Zhipu GLM client").data),
    (("CreateZhipu GLM客户端 (OpenAI兼容模式)").data, ("Create Zhipu GLM client (OpenAI compatible mode)").data),
    (("CreateVolcengine（Volcengine）客户端").data, ("Create Volcengine client").data),
    (("Create带有自Define配置的Volcengine客户端").data, ("Create Volcengine client with custom configuration").data),
    (("CreateTencent Hunyuan（Tencent Hunyuan）客户端").data, ("Create Tencent Hunyuan client").data),
    (("模型").data, ("model").data),
    (("配置").data, ("configuration").data),
    (("客户端").data, ("client").data),
    (("协议").data, ("protocol").data),
    (("适配器").data, ("adapter").data),
    (("提供商").data, ("provider").data),
    (("请求").data, ("request").data),
    (("响应").data, ("response").data),
    (("流式").data, ("streaming").data),
    (("工具").data, ("tool").data),
    (("函数").data, ("function").data),
    (("调用").data, ("call").data),
    (("端点").data, ("endpoint").data),
    (("认证").data, ("authentication").data),
    (("头部").data, ("headers").data),
    (("实例").data, ("instance").data),
    (("方法").data, ("method").data),
    (("辅助").data, ("helper").data),
    (("构造器").data, ("constructor").data),
    (("便捷").data, ("convenience").data),
    (("自Define").data, ("custom").data),
    (("自定义").data, ("custom").data),
    (("可选").data, ("optional").data),
    (("注意").data, ("Note").data),
    (("如果").data, ("if").data),
    (("失败").data, ("fails").data),
    (("成功").data, ("success").data),
    (("等。").data, ("etc.").data),
    (("如").data, ("such as").data),
    (("例如").data, ("e.g.").data),
    (("或").data, ("or").data),
    (("和").data, ("and").data),
    (("的").data, ("").data),
    (("了").data, ("").data),
    (("与").data, ("with").data),
    (("为").data, ("as").data),
    (("是").data, ("is").data),
    (("在").data, ("in").data),
    (("从").data, ("from").data),
    (("到").data, ("to").data),
    (("会").data, ("will").data),
    (("可能").data, ("may").data),
    (("所有").data, ("all").data),
    (("这个").data, ("this").data),
    (("这些").data, ("these").data),
    (("一个").data, ("a").data),
    (("用于").data, ("for").data),
    (("来").data, ("to").data),
    (("消息内容块Define").data, ("Message Content Block Definition").data),
    (("消息内容块").data, ("Message Content Block").data),
    (("文本块").data, ("Text block").data),
    (("图片块（Base64）").data, ("Image block (Base64)").data),
    (("图片块（URL）").data, ("Image block (URL)").data),
    (("图片块（Anthropic 格式）").data, ("Image block (Anthropic format)").data),
    (("图片 URL 块（OpenAI 格式）").data, ("Image URL block (OpenAI format)").data),
    (("Create文本块").data, ("Create text block").data),
    (("Create Base64 图片块（Anthropic 格式）").data, ("Create Base64 image block (Anthropic format)").data),
    (("媒体类型，such as \"image/jpeg\", \"image/png\"").data, ("Media type, such as \"image/jpeg\", \"image/png\"").data),
    (("Base64 编码图片数据").data, ("Base64 encoded image data").data),
    (("Create图片 URL 块（Anthropic 格式）").data, ("Create image URL block (Anthropic format)").data),
    (("Create图片 URL 块（OpenAI 格式）").data, ("Create image URL block (OpenAI format)").data),
    (("Create图片 URL 块（OpenAI 格式，带 detail Parameters）").data, ("Create image URL block (OpenAI format, with detail parameter)").data),
    (("图片 URL").data, ("Image URL").data),
    (("图片细节级别，optional值: \"auto\", \"low\", \"high\"").data, ("Image detail level, optional values: \"auto\", \"low\", \"high\"").data),
    (("Get文本内容（ifis文本块）").data, ("Get text content (if is text block)").data),
    (("判断is否as文本块").data, ("Check if is text block").data),
    (("判断is否as图片块").data, ("Check if is image block").data),
    (("图片to源（Anthropic 格式）").data, ("Image source (Anthropic format)").data),
    (("Base64 编码图片").data, ("Base64 encoded image").data),
    (("图片细节级别").data, ("Image detail level").data),
    (("optional值: \"auto\", \"low\", \"high\"").data, ("Optional values: \"auto\", \"low\", \"high\"").data),
    (("Provider-specific reasoning content (GLM 风格)").data, ("Provider-specific reasoning content (GLM style)").data),
    (("Provider-specific reasoning (Qwen/DeepSeek/OpenAI o1 通用键)").data, ("Provider-specific reasoning (Qwen/DeepSeek/OpenAI o1 common key)").data),
    (("Provider-specific thought (OpenAI o1 键)").data, ("Provider-specific thought (OpenAI o1 key)").data),
    (("Provider-specific thinking (Anthropic 键)").data, ("Provider-specific thinking (Anthropic key)").data),
    (("Reasoning (Qwen/DeepSeek/OpenAI o1 通用键)").data, ("Reasoning (Qwen/DeepSeek/OpenAI o1 common key)").data),
    (("Thought (OpenAI o1 键)").data, ("Thought (OpenAI o1 key)").data),
    (("Thinking (Anthropic 键)").data, ("Thinking (Anthropic key)").data),
    (("避免as每个 Provider 编写重复样板代码。").data, ("Avoids writing repetitive boilerplate code for each Provider.").data),
    (("额外静态headers").data, ("Additional static headers").data),
    (("聊天endpoint模板").data, ("Chat endpoint template").data),
    (("例such as: `\"\x7bbase_url\x7d/v1/chat/completions\"`").data, ("Example: `\"\x7bbase_url\x7d/v1/chat/completions\"`").data),
    (("例such as: `\"\x7bbase_url\x7d/v1/models\"`").data, ("Example: `\"\x7bbase_url\x7d/v1/models\"`").data),
    (("生成: `Authorization: Bearer \x7btoken\x7d`").data, ("Generates: `Authorization: Bearer \x7btoken\x7d`").data),
    (("生成: `\x7bheader_name\x7d: \x7btoken\x7d`").data, ("Generates: `\x7bheader_name\x7d: \x7btoken\x7d`").data),
    (("Header 名称").data, ("Header name").data),
    (("无authentication").data, ("No authentication").data),
    (("customauthentication（Through闭包）").data, ("Custom authentication (through closure)").data),
    (("闭包接收 token，Returnsheaders列表").data, ("Closure receives token, returns headers list").data),
    (("我is豆包").data, ("I am Doubao").data),
    (("风格").data, ("style").data),
    (("通用键").data, ("common key").data),
    (("键").data, ("key").data),
    (("as").data, ("as").data),
    (("is").data, ("is").data),
    (("if").data, ("if").data),
    (("to").data, ("to").data),
    (("such as").data, ("such as").data),
    (("例").data, ("Example").data),
    (("编码").data, ("encoded").data),
    (("数据").data, ("data").data),
    (("内容").data, ("content").data),
    (("判断").data, ("Check").data),
    (("否").data, ("if").data),
    (("源").data, ("source").data),
    (("级别").data, ("level").data),
    (("值").data, ("values").data),
    (("额外").data, ("Additional").data),
    (("静态").data, ("static").data),
    (("模板").data, ("template").data),
    (("生成").data, ("Generates").data),
    (("名称").data, ("name").data),
    (("无").data, ("No").data),
    (("接收").data, ("receives").data),
    (("列表").data, ("list").data),
    (("避免").data, ("Avoids").data),
    (("每个").data, ("each").data),
    (("编写").data, ("writing").data),
    (("重复").data, ("repetitive").data),
    (("样板").data, ("boilerplate").data),
    (("代码").data, ("code").data)
  ]

/-- `translate_line` from scripts/translate_rust_comments.py. -/
def translate_line (line : List Char) : List Char :=
  applyTable TRANSLATIONS line

/-- Python `content.split('\n')`. -/
def splitLines : List Char → List (List Char)
  | [] => [[]]
  | c :: t =>
    if c = '\n' then [] :: splitLines t
    else
      match splitLines t with
      | [] => [[c]]
      | l :: ls => (c :: l) :: ls

/-- Python `'\n'.join(lines)`. -/
def joinLines : List (List Char) → List Char
  | [] => []
  | [l] => l
  | l :: ls => l ++ '\n' :: joinLines ls

/-- The pure transformation performed by `translate_file`
(split, per-line rewrite, rejoin), generalized over the table. -/
def translateContentWith (table : List (List Char × List Char)) (content : List Char) : List Char :=
  joinLines ((splitLines content).map (applyTable table))

/-- The pure transformation of `translate_file` with the fixed table. -/
def translate_content (content : List Char) : List Char :=
  translateContentWith TRANSLATIONS content

/-- `translate_file`: its result string together with its returned
changed flag (`translated_content != content`), the I/O stripped away. -/
def translate_file (content : List Char) : List Char × Bool :=
  let r := translate_content content
  (r, r != content)

/-- Token of the fixed regex patterns of fix_message_construction.py:
a literal fragment, `\s*`, a `(\w+)` capture, or a `([^"]+)` capture.
Each capture class is disjoint from the token that follows it in every
pattern below, so greedy (maximal-munch) matching coincides with Python
regex backtracking semantics. -/
inductive RTok where
  | lit : List Char → RTok
  | ws : RTok
  | word : RTok
  | notq : RTok
deriving DecidableEq

/-- Piece of a replacement template: literal text or a capture reference. -/
inductive TPiece where
  | str : List Char → TPiece
  | grp : Nat → TPiece
deriving DecidableEq

/-- Attempt to match a token sequence at the start of `s`, accumulating
captures in order; returns the captures and the unconsumed rest. -/
def matchToks : List (List Char) → List RTok → List Char → Option (List (List Char) × List Char)
  | acc, [], s => some (acc, s)
  | acc, RTok.lit l :: ps, s =>
    if l.isPrefixOf s then matchToks acc ps (s.drop l.length) else none
  | acc, RTok.ws :: ps, s => matchToks acc ps (s.dropWhile isPySpace)
  | acc, RTok.word :: ps, s =>
    if (s.takeWhile isPyWord).isEmpty then none
    else matchToks (acc ++ [s.takeWhile isPyWord]) ps (s.dropWhile isPyWord)
  | acc, RTok.notq :: ps, s =>
    if (s.takeWhile (fun c => c != '"')).isEmpty then none
    else matchToks (acc ++ [s.takeWhile (fun c => c != '"')]) ps (s.dropWhile (fun c => c != '"'))

/-- Match a pattern at the start of `s` (no captures accumulated yet). -/
def matchPat (pat : List RTok) (s : List Char) : Option (List (List Char) × List Char) :=
  matchToks [] pat s

/-- Build the replacement text from a template and the captures (`\1`, `\2`). -/
def instantiate (caps : List (List Char)) : List TPiece → List Char
  | [] => []
  | TPiece.str l :: r => l ++ instantiate caps r
  | TPiece.grp n :: r => caps.getD n [] ++ instantiate caps r

/-- A structural rule: a pattern and its replacement template. -/
structure Rule where
  pat : List RTok
  tmpl : List TPiece
deriving DecidableEq

/-- `pattern1` / `replacement1`:
`Message\s*\{\s*role:\s*Role::(\w+),\s*content:\s*"([^"]+)"\.to_string\(\),\s*\.\.Default::default\(\)\s*\}`
→ `Message::text(Role::\1, "\2")`. -/
def rule1 : Rule :=
  ⟨[RTok.lit (("Message").data), RTok.ws, RTok.lit (("\x7b").data), RTok.ws,
    RTok.lit (("role:").data), RTok.ws, RTok.lit (("Role::").data), RTok.word,
    RTok.lit ((",").data), RTok.ws, RTok.lit (("content:").data), RTok.ws,
    RTok.lit (("\"").data), RTok.notq, RTok.lit (("\"").data),
    RTok.lit ((".to_string(),").data), RTok.ws,
    RTok.lit (("..Default::default()").data), RTok.ws, RTok.lit (("\x7d").data)],
   [TPiece.str (("Message::text(Role::").data), TPiece.grp 0,
    TPiece.str ((", \"").data), TPiece.grp 1, TPiece.str (("\")").data)]⟩

/-- `pattern2` / `replacement2`:
`Message\s*\{\s*role:\s*Role::(\w+),\s*content:\s*(\w+)\.to_string\(\),\s*\.\.Default::default\(\)\s*\}`
→ `Message::text(Role::\1, \2)`. -/
def rule2 : Rule :=
  ⟨[RTok.lit (("Message").data), RTok.ws, RTok.lit (("\x7b").data), RTok.ws,
    RTok.lit (("role:").data), RTok.ws, RTok.lit (("Role::").data), RTok.word,
    RTok.lit ((",").data), RTok.ws, RTok.lit (("content:").data), RTok.ws,
    RTok.word, RTok.lit ((".to_string(),").data), RTok.ws,
    RTok.lit (("..Default::default()").data), RTok.ws, RTok.lit (("\x7d").data)],
   [TPiece.str (("Message::text(Role::").data), TPiece.grp 0,
    TPiece.str ((", ").data), TPiece.grp 1, TPiece.str ((")").data)]⟩

/-- `pattern3` / `replacement3`:
`Message\s*\{\s*role:\s*Role::(\w+),\s*content:\s*"([^"]+)"\.to_string\(\),\s*name:\s*None,\s*tool_calls:\s*None,\s*tool_call_id:\s*None,\s*reasoning_content:\s*None,\s*reasoning:\s*None,\s*thought:\s*None,\s*thinking:\s*None,\s*\}`
→ `Message::text(Role::\1, "\2")`. -/
def rule3 : Rule :=
  ⟨[RTok.lit (("Message").data), RTok.ws, RTok.lit (("\x7b").data), RTok.ws,
    RTok.lit (("role:").data), RTok.ws, RTok.lit (("Role::").data), RTok.word,
    RTok.lit ((",").data), RTok.ws, RTok.lit (("content:").data), RTok.ws,
    RTok.lit (("\"").data), RTok.notq, RTok.lit (("\"").data),
    RTok.lit ((".to_string(),").data), RTok.ws,
    RTok.lit (("name:").data), RTok.ws, RTok.lit (("None,").data), RTok.ws,
    RTok.lit (("tool_calls:").data), RTok.ws, RTok.lit (("None,").data), RTok.ws,
    RTok.lit (("tool_call_id:").data), RTok.ws, RTok.lit (("None,").data), RTok.ws,
    RTok.lit (("reasoning_content:").data), RTok.ws, RTok.lit (("None,").data), RTok.ws,
    RTok.lit (("reasoning:").data), RTok.ws, RTok.lit (("None,").data), RTok.ws,
    RTok.lit (("thought:").data), RTok.ws, RTok.lit (("None,").data), RTok.ws,
    RTok.lit (("thinking:").data), RTok.ws, RTok.lit (("None,").data), RTok.ws,
    RTok.lit (("\x7d").data)],
   [TPiece.str (("Message::text(Role::").data), TPiece.grp 0,
    TPiece.str ((", \"").data), TPiece.grp 1, TPiece.str (("\")").data)]⟩

/-- The rules in the order the source applies them: the three sequential
`re.sub` calls of `fix_message_construction`. -/
def structuralRules : List Rule := [rule1, rule2, rule3]

/-- `re.sub(pattern, replacement, s)` for one rule: scan left to right, at
each position try the pattern; on a match emit the instantiated template
and continue after the match, otherwise copy one character. Explicit fuel
keeps the recursion structural; `subAll` supplies enough fuel. (The
zero-width-match branch is unreachable for the three rules above, whose
patterns begin with the nonempty literal `Message`.) -/
def subAllF (ru : Rule) : Nat → List Char → List Char
  | 0, s => s
  | f + 1, s =>
    match matchPat ru.pat s with
    | some (caps, rest) =>
      if rest.length < s.length then
        instantiate caps ru.tmpl ++ subAllF ru f rest
      else
        match s with
        | [] => instantiate caps ru.tmpl
        | c :: t => instantiate caps ru.tmpl ++ c :: subAllF ru f t
    | none =>
      match s with
      | [] => []
      | c :: t => c :: subAllF ru f t

/-- `re.sub(pattern, replacement, s)` for one rule. -/
def subAll (ru : Rule) (s : List Char) : List Char :=
  subAllF ru (s.length + 1) s

/-- `fix_message_construction` from scripts/fix_message_construction.py:
the three substitutions applied in source order. -/
def fix_message_construction (content : List Char) : List Char :=
  structuralRules.foldl (fun s ru => subAll ru s) content

/-- The per-file step of `main` in fix_message_construction.py: result plus
changed flag (`content != new_content`), the I/O stripped away. -/
def fix_file (content : List Char) : List Char × Bool :=
  let r := fix_message_construction content
  (r, r != content)

/-- The composed engine of the spec (structural rewriter, then lexical
rewriter) together with its changed flag. -/
def process (s : List Char) : List Char × Bool :=
  let r := translate_content (fix_message_construction s)
  (r, r != s)

/-- Head-of-list predicate failure: the scanner stops here. -/
@[reducible] def headNot (p : Char → Bool) : List Char → Prop
  | [] => True
  | c :: _ => p c = false

/-- No pattern match at any position (any suffix) of `s`. -/
def NoMatchP (pat : List RTok) (s : List Char) : Prop :=
  ∀ s', s' <:+ s → matchPat pat s' = none

/-- A structural pattern occurs somewhere in `s` (executable). -/
def occursPat (ru : Rule) : List Char → Bool
  | [] => (matchPat ru.pat []).isSome
  | c :: t => (matchPat ru.pat (c :: t)).isSome || occursPat ru t

/-- Condition under which a second engine run is a no-op on `r`: no structural
pattern occurs in `r` and every translation-table key occurring in `r` is
mapped to itself. -/
def stableFor (r : List Char) : Bool :=
  TRANSLATIONS.all (fun kv => kv.1 == kv.2 || !(containsSub kv.1 r)) &&
  !(occursPat rule1 r) && !(occursPat rule2 r) && !(occursPat rule3 r)

/-- A `Message` construct that lists every optional field explicitly as `None`
(the shape rewritten by `pattern3`), with the given role and content literal:
`Message { role: Role::role, content: "content".to_string(), name: None, ...,
thinking: None, }` with single spaces between tokens. -/
def allNoneConstruct (role content : List Char) : List Char :=
  (("Message").data) ++ ((" ").data) ++ (("\x7b").data) ++ ((" ").data) ++
  (("role:").data) ++ ((" ").data) ++ (("Role::").data) ++ role ++ ((",").data) ++
  ((" ").data) ++ (("content:").data) ++ ((" ").data) ++ (("\"").data) ++ content ++
  (("\".to_string(), name: None, tool_calls: None, tool_call_id: None, reasoning_content: None, reasoning: None, thought: None, thinking: None, \x7d").data)

/-- The canonical two-argument form `Message::text(Role::role, "content")`. -/
def canonicalText (role content : List Char) : List Char :=
  (("Message::text(Role::").data) ++ role ++ ((", \"").data) ++ content ++ (("\")").data)

/-- The `pattern1` construct with explicit whitespace slots `w1 .. w7`
standing for the seven `\s*` positions of the pattern. -/
def construct1 (w1 w2 w3 w4 w5 w6 w7 role content : List Char) : List Char :=
  (("Message").data) ++ w1 ++ (("\x7b").data) ++ w2 ++ (("role:").data) ++ w3 ++
  (("Role::").data) ++ role ++ ((",").data) ++ w4 ++ (("content:").data) ++ w5 ++
  (("\"").data) ++ content ++ (("\"").data) ++ ((".to_string(),").data) ++ w6 ++
  (("..Default::default()").data) ++ w7 ++ (("\x7d").data)

/-- Shape of the capture list produced by a successful match of a token
sequence: one entry per capturing token, `\w+` captures nonempty and all word
characters, `[^"]+` captures nonempty and free of double quotes. -/
def capsPred : List RTok → List (List Char) → Prop
  | [], caps => caps = []
  | RTok.lit _ :: ps, caps => capsPred ps caps
  | RTok.ws :: ps, caps => capsPred ps caps
  | RTok.word :: ps, caps =>
    ∃ u rest, caps = u :: rest ∧ u ≠ [] ∧ (∀ c ∈ u, isPyWord c = true) ∧ capsPred ps rest
  | RTok.notq :: ps, caps =>
    ∃ u rest, caps = u :: rest ∧ u ≠ [] ∧ (∀ c ∈ u, (c != '\"') = true) ∧ capsPred ps rest

/-! ### Generic helper lemmas -/

theorem isPyWord_not_space {c : Char} (h : isPyWord c = true) : isPySpace c = false := by
  by_contra hs
  rw [Bool.not_eq_false] at hs
  simp only [isPySpace, Bool.or_eq_true, Bool.and_eq_true, decide_eq_true_eq,
    Nat.beq_eq_true_eq] at hs
  simp only [isPyWord, Bool.or_eq_true, Bool.and_eq_true, decide_eq_true_eq,
    Nat.beq_eq_true_eq] at h
  omega

theorem dropWhile_stop {p : Char → Bool} {s : List Char} (h : headNot p s) :
    s.dropWhile p = s := by
  cases s with
  | nil => rfl
  | cons c t => simp only [headNot] at h; simp [List.dropWhile_cons, h]

theorem takeWhile_stop {p : Char → Bool} {s : List Char} (h : headNot p s) :
    s.takeWhile p = [] := by
  cases s with
  | nil => rfl
  | cons c t => simp only [headNot] at h; simp [List.takeWhile_cons, h]

theorem takeWhile_seg {p : Char → Bool} {u s : List Char} (h1 : ∀ c ∈ u, p c)
    (h2 : headNot p s) : (u ++ s).takeWhile p = u := by
  rw [List.takeWhile_append_of_pos h1, takeWhile_stop h2, List.append_nil]

theorem dropWhile_seg {p : Char → Bool} {u s : List Char} (h1 : ∀ c ∈ u, p c)
    (h2 : headNot p s) : (u ++ s).dropWhile p = s := by
  rw [List.dropWhile_append_of_pos h1, dropWhile_stop h2]

theorem suffix_append_cases {s' a b : List Char} (h : s' <:+ a ++ b) :
    s' <:+ b ∨ ∃ a', a' <:+ a ∧ a' ≠ [] ∧ s' = a' ++ b := by
  induction a with
  | nil => exact Or.inl (by simpa using h)
  | cons c a0 ih =>
    rcases List.suffix_cons_iff.1 h with h1 | h2
    · exact Or.inr ⟨c :: a0, List.suffix_refl _, List.cons_ne_nil _ _, h1⟩
    · rcases ih h2 with h3 | ⟨a', ha, hne, rfl⟩
      · exact Or.inl h3
      · exact Or.inr ⟨a', ha.trans (List.suffix_cons c a0), hne, rfl⟩

theorem prefix_append_cases {L a b : List Char} (h : L <+: a ++ b) :
    L <+: a ∨ (a <+: L ∧ L.drop a.length <+: b) := by
  induction a generalizing L with
  | nil => exact Or.inr ⟨List.nil_prefix, by simpa using h⟩
  | cons c a0 ih =>
    cases L with
    | nil => exact Or.inl List.nil_prefix
    | cons d L0 =>
      rw [List.cons_append, List.cons_prefix_cons] at h
      obtain ⟨rfl, h2⟩ := h
      rcases ih h2 with h3 | ⟨h4, h5⟩
      · exact Or.inl (List.cons_prefix_cons.2 ⟨rfl, h3⟩)
      · refine Or.inr ⟨List.cons_prefix_cons.2 ⟨rfl, h4⟩, ?_⟩
        simpa using h5

theorem containsSub_iff {k s : List Char} :
    containsSub k s = true ↔ ∃ s', s' <:+ s ∧ k <+: s' := by
  induction s with
  | nil =>
    simp only [containsSub, List.isEmpty_iff]
    constructor
    · rintro rfl; exact ⟨[], List.suffix_refl _, List.prefix_refl _⟩
    · rintro ⟨s', hs, hk⟩
      have h0 : s' = [] := List.suffix_nil.1 hs
      subst h0
      exact List.prefix_nil.1 hk
  | cons c t ih =>
    simp only [containsSub, Bool.or_eq_true, List.isPrefixOf_iff_prefix, ih]
    constructor
    · rintro (h | ⟨s', hs, hk⟩)
      · exact ⟨c :: t, List.suffix_refl _, h⟩
      · exact ⟨s', hs.trans (List.suffix_cons c t), hk⟩
    · rintro ⟨s', hs, hk⟩
      rcases List.suffix_cons_iff.1 hs with rfl | h2
      · exact Or.inl hk
      · exact Or.inr ⟨s', h2, hk⟩

theorem containsSub_mono {k l s : List Char} (h : l <:+: s)
    (hc : containsSub k l = true) : containsSub k s = true := by
  rcases containsSub_iff.1 hc with ⟨s', hs, hk⟩
  rcases List.infix_iff_prefix_suffix.1 h with ⟨t, hlt, hts⟩
  rcases hlt with ⟨u, rfl⟩
  rcases hts with ⟨v, rfl⟩
  rcases hs with ⟨w, rfl⟩
  refine containsSub_iff.2 ⟨s' ++ u, ?_, hk.trans (List.prefix_append s' u)⟩
  exact ⟨v ++ w, by simp⟩

/-! ### Matcher step lemmas -/

theorem mt_nil {acc : List (List Char)} {s : List Char} :
    matchToks acc [] s = some (acc, s) := rfl

theorem mt_lit {acc : List (List Char)} {L s : List Char} {ps : List RTok} :
    matchToks acc (RTok.lit L :: ps) (L ++ s) = matchToks acc ps s := by
  have hp : L.isPrefixOf (L ++ s) = true :=
    List.isPrefixOf_iff_prefix.2 (List.prefix_append L s)
  simp [matchToks, hp, List.drop_left]

theorem mt_lit_none {acc : List (List Char)} {L s : List Char} {ps : List RTok}
    (h : ¬ L <+: s) : matchToks acc (RTok.lit L :: ps) s = none := by
  have hp : L.isPrefixOf s = false := by
    rw [← Bool.not_eq_true, List.isPrefixOf_iff_prefix]
    exact h
  simp [matchToks, hp]

theorem mt_lit_head_ne {acc : List (List Char)} {c₀ c : Char} {L s : List Char}
    {ps : List RTok} (h : c ≠ c₀) :
    matchToks acc (RTok.lit (c₀ :: L) :: ps) (c :: s) = none := by
  refine mt_lit_none fun hp => ?_
  rw [List.cons_prefix_cons] at hp
  exact h hp.1.symm

theorem mt_lit_nil {acc : List (List Char)} {c₀ : Char} {L : List Char} {ps : List RTok} :
    matchToks acc (RTok.lit (c₀ :: L) :: ps) [] = none := by
  refine mt_lit_none fun hp => ?_
  simpa using List.prefix_nil.1 hp

theorem mt_ws {acc : List (List Char)} {w s : List Char} {ps : List RTok}
    (h1 : ∀ c ∈ w, isPySpace c) (h2 : headNot isPySpace s) :
    matchToks acc (RTok.ws :: ps) (w ++ s) = matchToks acc ps s := by
  simp [matchToks, dropWhile_seg h1 h2]

theorem mt_word {acc : List (List Char)} {u s : List Char} {ps : List RTok}
    (h1 : ∀ c ∈ u, isPyWord c) (hne : u ≠ []) (h2 : headNot isPyWord s) :
    matchToks acc (RTok.word :: ps) (u ++ s) = matchToks (acc ++ [u]) ps s := by
  have ht : (u ++ s).takeWhile isPyWord = u := takeWhile_seg h1 h2
  have hd : (u ++ s).dropWhile isPyWord = s := dropWhile_seg h1 h2
  simp [matchToks, ht, hd, List.isEmpty_iff, hne]

theorem mt_word_stop {acc : List (List Char)} {s : List Char} {ps : List RTok}
    (h : headNot isPyWord s) : matchToks acc (RTok.word :: ps) s = none := by
  simp [matchToks, takeWhile_stop h]

theorem mt_notq {acc : List (List Char)} {u s : List Char} {ps : List RTok}
    (h1 : ∀ c ∈ u, (c != '"') = true) (hne : u ≠ []) (h2 : headNot (fun c => c != '"') s) :
    matchToks acc (RTok.notq :: ps) (u ++ s) = matchToks (acc ++ [u]) ps s := by
  have ht : (u ++ s).takeWhile (fun c => c != '"') = u := takeWhile_seg h1 h2
  have hd : (u ++ s).dropWhile (fun c => c != '"') = s := dropWhile_seg h1 h2
  simp only [matchToks, ht, hd, List.isEmpty_iff, hne]
  simp [hne]

theorem mt_notq_stop {acc : List (List Char)} {s : List Char} {ps : List RTok}
    (h : headNot (fun c => c != '"') s) : matchToks acc (RTok.notq :: ps) s = none := by
  simp [matchToks, takeWhile_stop h]

theorem occursPat_eq_false_iff {ru : Rule} {s : List Char} :
    occursPat ru s = false ↔ NoMatchP ru.pat s := by
  induction s with
  | nil =>
    simp only [occursPat, Option.not_isSome, Option.isNone_iff_eq_none, NoMatchP]
    constructor
    · intro h s' hs
      have h0 : s' = [] := List.suffix_nil.1 hs
      rwa [h0]
    · intro h; exact h [] (List.suffix_refl _)
  | cons c t ih =>
    simp only [occursPat, Bool.or_eq_false_iff, Option.not_isSome,
      Option.isNone_iff_eq_none, ih, NoMatchP]
    constructor
    · rintro ⟨h0, h1⟩ s' hs
      rcases List.suffix_cons_iff.1 hs with rfl | h2
      · exact h0
      · exact h1 s' h2
    · intro h
      exact ⟨h _ (List.suffix_refl _), fun s' hs => h s' (hs.trans (List.suffix_cons c t))⟩

theorem noMatchP_append {pat : List RTok} {a b : List Char}
    (h1 : ∀ a', a' <:+ a → a' ≠ [] → matchPat pat (a' ++ b) = none)
    (h2 : NoMatchP pat b) : NoMatchP pat (a ++ b) := by
  intro s' hs
  rcases suffix_append_cases hs with h | ⟨a', ha, hne, rfl⟩
  · exact h2 _ h
  · exact h1 _ ha hne

theorem noMatchP_cons {pat : List RTok} {c : Char} {s : List Char}
    (h0 : matchPat pat (c :: s) = none) (h : NoMatchP pat s) : NoMatchP pat (c :: s) := by
  intro s' hs
  rcases List.suffix_cons_iff.1 hs with rfl | h2
  · exact h0
  · exact h s' h2

theorem seg_no_head {c₀ : Char} {L seg y : List Char} {ps : List RTok}
    (hM : c₀ ∉ seg) :
    ∀ a', a' <:+ seg → a' ≠ [] → matchPat (RTok.lit (c₀ :: L) :: ps) (a' ++ y) = none := by
  intro a' ha hne
  cases a' with
  | nil => exact absurd rfl hne
  | cons c t =>
    have hc : c ∈ seg := ha.sublist.subset (by simp)
    have : c ≠ c₀ := fun h => hM (h ▸ hc)
    exact mt_lit_head_ne this

/-! ### Substitution lemmas -/

theorem subAllF_fuel {ru : Rule} : ∀ (f g : Nat) (s : List Char), s.length < f →
    s.length < g → subAllF ru f s = subAllF ru g s := by
  intro f
  induction f with
  | zero => intro g s h _; exact absurd h (Nat.not_lt_zero _)
  | succ f ih =>
    intro g s hf hg
    cases g with
    | zero => exact absurd hg (Nat.not_lt_zero _)
    | succ g =>
      simp only [subAllF]
      cases hm : matchPat ru.pat s with
      | none =>
        cases s with
        | nil => rfl
        | cons c t =>
          have h1 : t.length < f := by simp at hf; omega
          have h2 : t.length < g := by simp at hg; omega
          dsimp only
          rw [ih g t h1 h2]
      | some cr =>
        obtain ⟨caps, rest⟩ := cr
        dsimp only
        by_cases hlt : rest.length < s.length
        · simp only [if_pos hlt]
          rw [ih g rest (by omega) (by omega)]
        · simp only [if_neg hlt]
          cases s with
          | nil => rfl
          | cons c t =>
            have h1 : t.length < f := by simp at hf; omega
            have h2 : t.length < g := by simp at hg; omega
            dsimp only
            rw [ih g t h1 h2]

theorem subAll_of_match {ru : Rule} {s rest : List Char} {caps : List (List Char)}
    (hm : matchPat ru.pat s = some (caps, rest)) (hlt : rest.length < s.length) :
    subAll ru s = instantiate caps ru.tmpl ++ subAll ru rest := by
  unfold subAll
  have h1 : subAllF ru (s.length + 1) s
      = instantiate caps ru.tmpl ++ subAllF ru s.length rest := by
    simp only [subAllF, hm, if_pos hlt]
  rw [h1, subAllF_fuel s.length (rest.length + 1) rest (by omega) (by omega)]

theorem subAllF_eq_self {ru : Rule} (f : Nat) {s : List Char}
    (h : NoMatchP ru.pat s) : subAllF ru f s = s := by
  induction f generalizing s with
  | zero => rfl
  | succ f ih =>
    have h0 : matchPat ru.pat s = none := h s (List.suffix_refl s)
    cases s with
    | nil => simp only [subAllF, h0]
    | cons c t =>
      have ht : NoMatchP ru.pat t := fun s' hs => h s' (hs.trans (List.suffix_cons c t))
      simp only [subAllF, h0]
      rw [ih ht]

theorem subAll_eq_self {ru : Rule} {s : List Char} (h : NoMatchP ru.pat s) :
    subAll ru s = s :=
  subAllF_eq_self _ h

theorem fix_eq_subs (s : List Char) :
    fix_message_construction s = subAll rule3 (subAll rule2 (subAll rule1 s)) := rfl

/-! ### Lexical engine lemmas -/

theorem pyReplaceF_self {k : List Char} : ∀ (f : Nat) (s : List Char),
    pyReplaceF k k f s = s := by
  intro f
  induction f with
  | zero => intro s; rfl
  | succ f ih =>
    intro s
    cases s with
    | nil =>
      simp only [pyReplaceF]
      split
      · next h => exact List.isEmpty_iff.1 h
      · rfl
    | cons c t =>
      simp only [pyReplaceF]
      by_cases hk : k.isEmpty
      · rw [List.isEmpty_iff] at hk
        subst hk
        simp [ih]
      · simp only [hk, Bool.false_eq_true, if_false]
        by_cases hp : k.isPrefixOf (c :: t)
        · simp only [hp, if_pos]
          rw [ih]
          obtain ⟨u, hu⟩ := List.isPrefixOf_iff_prefix.1 hp
          rw [← hu, List.drop_left]
        · simp [hp, ih]

theorem pyReplace_self {k s : List Char} : pyReplace k k s = s :=
  pyReplaceF_self _ _

theorem mem_pyReplaceF {key val : List Char} {c : Char} :
    ∀ (f : Nat) (s : List Char), c ∈ pyReplaceF key val f s → c ∈ s ∨ c ∈ val := by
  intro f
  induction f with
  | zero => intro s h; exact Or.inl h
  | succ f ih =>
    intro s h
    cases s with
    | nil =>
      simp only [pyReplaceF] at h
      split at h
      · exact Or.inr h
      · simp at h
    | cons d t =>
      simp only [pyReplaceF] at h
      split at h
      · rcases List.mem_append.1 h with h1 | h2
        · exact Or.inr h1
        · rcases List.mem_cons.1 h2 with rfl | h3
          · exact Or.inl (by simp)
          · rcases ih t h3 with h4 | h4
            · exact Or.inl (by simp [h4])
            · exact Or.inr h4
      · split at h
        · rcases List.mem_append.1 h with h1 | h2
          · exact Or.inr h1
          · rcases ih _ h2 with h4 | h4
            · exact Or.inl ((List.drop_suffix _ _).sublist.subset h4)
            · exact Or.inr h4
        · rcases List.mem_cons.1 h with rfl | h3
          · exact Or.inl (by simp)
          · rcases ih t h3 with h4 | h4
            · exact Or.inl (by simp [h4])
            · exact Or.inr h4

theorem mem_pyReplace {key val s : List Char} {c : Char}
    (h : c ∈ pyReplace key val s) : c ∈ s ∨ c ∈ val :=
  mem_pyReplaceF _ _ h

theorem applyEntry_id {line : List Char} {kv : List Char × List Char}
    (h : kv.1 = kv.2 ∨ containsSub kv.1 line = false) : applyEntry line kv = line := by
  unfold applyEntry
  rcases h with h | h
  · split
    · rw [h, pyReplace_self]
    · rfl
  · simp [h]

theorem applyTable_id {table : List (List Char × List Char)} {line : List Char}
    (h : ∀ kv ∈ table, kv.1 = kv.2 ∨ containsSub kv.1 line = false) :
    applyTable table line = line := by
  induction table with
  | nil => rfl
  | cons kv tb ih =>
    unfold applyTable at *
    simp only [List.foldl_cons]
    rw [applyEntry_id (h kv (by simp))]
    exact ih fun kv' hkv' => h kv' (by simp [hkv'])

theorem mem_applyTable {table : List (List Char × List Char)} {c : Char} :
    ∀ {line : List Char}, c ∈ applyTable table line →
      c ∈ line ∨ ∃ kv ∈ table, c ∈ kv.2 := by
  induction table with
  | nil => intro line h; exact Or.inl h
  | cons kv tb ih =>
    intro line h
    have h0 : applyTable (kv :: tb) line = applyTable tb (applyEntry line kv) := rfl
    rw [h0] at h
    rcases ih h with h1 | ⟨kv', hm, hc⟩
    · unfold applyEntry at h1
      split at h1
      · rcases mem_pyReplace h1 with h2 | h2
        · exact Or.inl h2
        · exact Or.inr ⟨kv, by simp, h2⟩
      · exact Or.inl h1
    · exact Or.inr ⟨kv', by simp [hm], hc⟩

/-! ### Line splitting lemmas -/

theorem splitLines_ne_nil (s : List Char) : splitLines s ≠ [] := by
  cases s with
  | nil => simp [splitLines]
  | cons c t =>
    simp only [splitLines]
    split
    · simp
    · split <;> simp

theorem joinLines_splitLines (s : List Char) : joinLines (splitLines s) = s := by
  induction s with
  | nil => rfl
  | cons c t ih =>
    by_cases hc : c = '\n'
    · subst hc
      have h0 : splitLines ('\n' :: t) = [] :: splitLines t := by simp [splitLines]
      rw [h0]
      cases hsp : splitLines t with
      | nil => exact absurd hsp (splitLines_ne_nil t)
      | cons l ls =>
        have h1 : joinLines ([] :: l :: ls) = '\n' :: joinLines (l :: ls) := rfl
        rw [h1, ← hsp, ih]
    · cases hsp : splitLines t with
      | nil => exact absurd hsp (splitLines_ne_nil t)
      | cons l ls =>
        have h0 : splitLines (c :: t) = (c :: l) :: ls := by
          simp [splitLines, hc, hsp]
        rw [h0]
        cases ls with
        | nil =>
          have h1 : joinLines [c :: l] = c :: l := rfl
          have h2 : joinLines [l] = l := rfl
          rw [hsp, h2] at ih
          rw [h1, ih]
        | cons l2 ls2 =>
          have h1 : joinLines ((c :: l) :: l2 :: ls2)
              = (c :: l) ++ '\n' :: joinLines (l2 :: ls2) := rfl
          have h2 : joinLines (l :: l2 :: ls2) = l ++ '\n' :: joinLines (l2 :: ls2) := rfl
          rw [hsp, h2] at ih
          rw [h1, List.cons_append, ih]

theorem splitLines_no_newline : ∀ (s : List Char), ∀ l ∈ splitLines s, '\n' ∉ l := by
  intro s
  induction s with
  | nil => intro l hl; simp [splitLines] at hl; simp [hl]
  | cons c t ih =>
    intro l hl
    simp only [splitLines] at hl
    by_cases hc : c = '\n'
    · rw [if_pos hc] at hl
      rcases List.mem_cons.1 hl with rfl | h2
      · simp
      · exact ih l h2
    · rw [if_neg hc] at hl
      cases hsp : splitLines t with
      | nil => exact absurd hsp (splitLines_ne_nil t)
      | cons l0 ls0 =>
        rw [hsp] at hl
        rcases List.mem_cons.1 hl with rfl | h2
        · intro hmem
          rcases List.mem_cons.1 hmem with h3 | h3
          · exact hc h3.symm
          · exact ih l0 (by simp [hsp]) h3
        · exact ih l (by simp [hsp, h2])

theorem splitLines_head_prefix : ∀ (s : List Char), ∃ l ls,
    splitLines s = l :: ls ∧ l <+: s := by
  intro s
  induction s with
  | nil => exact ⟨[], [], rfl, List.prefix_refl _⟩
  | cons c t ih =>
    by_cases hc : c = '\n'
    · subst hc
      exact ⟨[], splitLines t, by simp [splitLines], List.nil_prefix⟩
    · obtain ⟨l, ls, heq, hpre⟩ := ih
      refine ⟨c :: l, ls, ?_, List.cons_prefix_cons.2 ⟨rfl, hpre⟩⟩
      simp [splitLines, hc, heq]

theorem splitLines_mem_within : ∀ (s : List Char), ∀ l ∈ splitLines s, l <:+: s := by
  intro s
  induction s with
  | nil => intro l hl; simp [splitLines] at hl; simp [hl]
  | cons c t ih =>
    intro l hl
    simp only [splitLines] at hl
    by_cases hc : c = '\n'
    · rw [if_pos hc] at hl
      rcases List.mem_cons.1 hl with rfl | h2
      · exact List.nil_infix
      · exact (ih l h2).trans (List.infix_cons (List.infix_refl t))
    · rw [if_neg hc] at hl
      cases hsp : splitLines t with
      | nil => exact absurd hsp (splitLines_ne_nil t)
      | cons l0 ls0 =>
        rw [hsp] at hl
        rcases List.mem_cons.1 hl with rfl | h2
        · obtain ⟨l1, ls1, heq, hpre⟩ := splitLines_head_prefix t
          rw [heq] at hsp
          have h0 : l0 <+: t := by
            have h1 : l1 = l0 := by injection hsp with ha hb
            rwa [h1] at hpre
          exact (List.cons_prefix_cons.2 ⟨rfl, h0⟩).isInfix
        · exact (ih l (by simp [hsp, h2])).trans (List.infix_cons (List.infix_refl t))

theorem splitLines_of_no_newline : ∀ {l : List Char}, '\n' ∉ l → splitLines l = [l] := by
  intro l
  induction l with
  | nil => intro h; rfl
  | cons c t ih =>
    intro h
    have hc : c ≠ '\n' := fun he => h (by simp [he])
    have ht : '\n' ∉ t := fun hm => h (by simp [hm])
    simp [splitLines, hc, ih ht]

theorem splitLines_append_newline {l x : List Char} (h : '\n' ∉ l) :
    splitLines (l ++ '\n' :: x) = l :: splitLines x := by
  induction l with
  | nil => simp [splitLines]
  | cons c t ih =>
    have hc : c ≠ '\n' := fun he => h (by simp [he])
    have ht : '\n' ∉ t := fun hm => h (by simp [hm])
    simp [splitLines, hc, ih ht]

theorem splitLines_joinLines : ∀ {ls : List (List Char)}, (∀ l ∈ ls, '\n' ∉ l) →
    ls ≠ [] → splitLines (joinLines ls) = ls := by
  intro ls
  induction ls with
  | nil => intro _ h; exact absurd rfl h
  | cons l ls ih =>
    intro h _
    cases ls with
    | nil =>
      have h1 : joinLines [l] = l := rfl
      rw [h1, splitLines_of_no_newline (h l (by simp))]
    | cons l2 ls2 =>
      have h1 : joinLines (l :: l2 :: ls2) = l ++ '\n' :: joinLines (l2 :: ls2) := rfl
      rw [h1, splitLines_append_newline (h l (by simp))]
      rw [ih (fun l' hl' => h l' (by simp [hl'])) (by simp)]

/-! ### Engine-level helper lemmas -/

theorem map_id_of {α : Type} {f : α → α} {l : List α} (h : ∀ x ∈ l, f x = x) :
    l.map f = l := by
  induction l with
  | nil => rfl
  | cons a t ih => simp [h a (by simp), ih fun x hx => h x (by simp [hx])]

theorem translate_content_id {s : List Char}
    (hT : ∀ kv ∈ TRANSLATIONS, kv.1 = kv.2 ∨ containsSub kv.1 s = false) :
    translate_content s = s := by
  unfold translate_content translateContentWith
  have hmap : (splitLines s).map (applyTable TRANSLATIONS) = splitLines s := by
    refine map_id_of fun l hl => applyTable_id fun kv hkv => ?_
    rcases hT kv hkv with h | h
    · exact Or.inl h
    · refine Or.inr ?_
      cases hcl : containsSub kv.1 l with
      | false => rfl
      | true =>
        exact absurd (containsSub_mono (splitLines_mem_within s l hl) hcl) (by simp [h])
  rw [hmap, joinLines_splitLines]

theorem process_id_core {s : List Char}
    (h1 : NoMatchP rule1.pat s) (h2 : NoMatchP rule2.pat s) (h3 : NoMatchP rule3.pat s)
    (hT : ∀ kv ∈ TRANSLATIONS, kv.1 = kv.2 ∨ containsSub kv.1 s = false) :
    process s = (s, false) := by
  have hfix : fix_message_construction s = s := by
    rw [fix_eq_subs, subAll_eq_self h1, subAll_eq_self h2, subAll_eq_self h3]
  have htr : translate_content s = s := translate_content_id hT
  simp [process, hfix, htr]

theorem process_id_of_stable {r : List Char} (h : stableFor r = true) :
    process r = (r, false) := by
  simp only [stableFor, Bool.and_eq_true, List.all_eq_true, Bool.or_eq_true, beq_iff_eq,
    Bool.not_eq_true', Bool.not_eq_true, Bool.not_eq_eq_eq_not] at h
  obtain ⟨⟨⟨hT, h1⟩, h2⟩, h3⟩ := h
  exact process_id_core (occursPat_eq_false_iff.1 h1) (occursPat_eq_false_iff.1 h2)
    (occursPat_eq_false_iff.1 h3) fun kv hkv => hT kv hkv

/-! ### Claim theorems -/

/-- C1 counterexample: the composed transformation is not idempotent. On the
input `客的户端`, the first run deletes `的` (yielding `客户端`, a table key
that has already been passed over), and the second run rewrites that output
again to `client` — so `process (process s).result` is not
`((process s).result, changed := false)`. -/
theorem claim_C1_counterexample :
    ¬ (process ((process (("客的户端").data)).1)
        = ((process (("客的户端").data)).1, false)) := by
  decide

/-- C1 (amended): re-running the engine on its own output is a no-op for every
input whose transformed output contains no structural-pattern occurrence and
no translation-table key mapped to a value different from itself. (The
unconditional idempotence stated by the spec fails; see the counterexample.) -/
theorem claim_C1_amended (s : List Char) (h : stableFor ((process s).1) = true) :
    process ((process s).1) = ((process s).1, false) :=
  process_id_of_stable h

theorem claim_C1_amended_witness :
    stableFor ((process (("hello").data)).1) = true ∧
      process ((process (("hello").data)).1) = ((process (("hello").data)).1, false) :=
  ⟨by decide, claim_C1_amended (("hello").data) (by decide)⟩

/-- C2: for every input, each changed flag (of the composed engine, of
`translate_file`, and of the fix script's per-file step) is true exactly when
the result differs byte-for-byte from the original. -/
theorem claim_C2 (s : List Char) :
    ((process s).2 = true ↔ (process s).1 ≠ s) ∧
    ((translate_file s).2 = true ↔ (translate_file s).1 ≠ s) ∧
    ((fix_file s).2 = true ↔ (fix_file s).1 ≠ s) := by
  refine ⟨?_, ?_, ?_⟩ <;> simp [process, translate_file, fix_file]

/-- C5: the lexical rewriter's output depends on table order: the table
`{"ab": "X", "a": "Y"}` applied to `ab` yields `X`, while the reordered table
`{"a": "Y", "ab": "X"}` applied to `ab` yields `Yb`. -/
theorem claim_C5 :
    applyTable [((("ab").data), (("X").data)), ((("a").data), (("Y").data))] (("ab").data)
        = ("X").data ∧
    applyTable [((("a").data), (("Y").data)), ((("ab").data), (("X").data))] (("ab").data)
        = ("Yb").data := by
  decide

/-- C9: the transformation functions are total: for every input string they
return a result string (the embedding has no error branch to reach). -/
theorem claim_C9 (s : List Char) :
    ∃ t u : List Char, fix_message_construction s = t ∧ translate_line s = u :=
  ⟨_, _, rfl, rfl⟩

/-- C7: any input in which no structural pattern occurs at any position and
which contains none of the translation-table keys is returned unchanged with
changed = false; moreover splitting on newlines and rejoining loses nothing
for any input whatsoever. -/
theorem claim_C7 :
    (∀ s : List Char, occursPat rule1 s = false → occursPat rule2 s = false →
      occursPat rule3 s = false → (∀ kv ∈ TRANSLATIONS, containsSub kv.1 s = false) →
      process s = (s, false)) ∧
    (∀ t : List Char, joinLines (splitLines t) = t) := by
  constructor
  · intro s h1 h2 h3 h4
    exact process_id_core (occursPat_eq_false_iff.1 h1) (occursPat_eq_false_iff.1 h2)
      (occursPat_eq_false_iff.1 h3) fun kv hkv => Or.inr (h4 kv hkv)
  · exact joinLines_splitLines

theorem claim_C7_witness : process (("no match here").data) = ((("no match here").data), false) :=
  claim_C7.1 (("no match here").data) (by decide) (by decide) (by decide) (by decide)

/-- C6: lexical replacement never spans line boundaries. The lines of the
rewritten file are exactly the per-line rewrites of the input lines (same
count, same order, rejoined with the same separator); an entry whose key
contains a newline can never change a (newline-free) line; and on the
concrete two-line text `a\nb`, a table whose only key is `a\nb` leaves the
text unchanged even though the two adjacent lines concatenate to the key. -/
theorem claim_C6 :
    (∀ s : List Char, splitLines (translate_content s) = (splitLines s).map translate_line)
    ∧ (∀ k v line : List Char, '\n' ∈ k → '\n' ∉ line → applyEntry line (k, v) = line)
    ∧ (translateContentWith [((("a\nb").data), (("X").data))] (("a\nb").data)
        = ("a\nb").data) := by
  refine ⟨?_, ?_, by decide⟩
  · intro s
    have hv : ∀ kv ∈ TRANSLATIONS, '\n' ∉ kv.2 := by decide
    have hlines : ∀ l ∈ (splitLines s).map (applyTable TRANSLATIONS), '\n' ∉ l := by
      intro l hl
      rcases List.mem_map.1 hl with ⟨l0, hl0, rfl⟩
      intro hmem
      rcases mem_applyTable hmem with h1 | ⟨kv, hkv, h2⟩
      · exact splitLines_no_newline s l0 hl0 h1
      · exact hv kv hkv h2
    have hne : (splitLines s).map (applyTable TRANSLATIONS) ≠ [] := by
      simp [List.map_eq_nil_iff, splitLines_ne_nil]
    have h0 : translate_content s
        = joinLines ((splitLines s).map (applyTable TRANSLATIONS)) := rfl
    rw [h0, splitLines_joinLines hlines hne]
    rfl
  · intro k v line hk hline
    unfold applyEntry
    have hc : containsSub k line = false := by
      cases hcl : containsSub k line with
      | false => rfl
      | true =>
        rcases containsSub_iff.1 hcl with ⟨s', hs, hp⟩
        exact absurd (hs.sublist.subset (hp.sublist.subset hk)) hline
    simp [hc]

theorem claim_C6_witness :
    applyEntry (("ab").data) ((("a\nb").data), (("X").data)) = ("ab").data :=
  claim_C6.2.1 (("a\nb").data) (("X").data) (("ab").data) (by decide) (by decide)

/-! ### Further matcher lemmas -/

theorem headNot_of {p : Char → Bool} {c : Char} {t : List Char} (h : p c = false) :
    headNot p (c :: t) := h

theorem headNot_append {p : Char → Bool} {c : Char} {t y : List Char} (h : p c = false) :
    headNot p ((c :: t) ++ y) := h

theorem mt_ws_stop {acc : List (List Char)} {s : List Char} {ps : List RTok}
    (h : headNot isPySpace s) :
    matchToks acc (RTok.ws :: ps) s = matchToks acc ps s := by
  simp [matchToks, dropWhile_stop h]

theorem mt_lit_last {acc : List (List Char)} {L : List Char} :
    matchToks acc [RTok.lit L] L = some (acc, []) := by
  have h : matchToks acc [RTok.lit L] (L ++ []) = matchToks acc [] [] := mt_lit
  rw [List.append_nil] at h
  rw [h, mt_nil]

theorem matchToks_acc_append (acc : List (List Char)) (ps : List RTok) (s : List Char) :
    matchToks acc ps s
      = Option.map (fun cr => (acc ++ cr.1, cr.2)) (matchToks [] ps s) := by
  induction ps generalizing acc s with
  | nil => simp [matchToks]
  | cons tok ps ih =>
    cases tok with
    | lit L =>
      simp only [matchToks]
      split
      · rw [ih acc, ih []]
      · rfl
    | ws =>
      simp only [matchToks]
      rw [ih acc, ih []]
    | word =>
      simp only [matchToks]
      split
      · rfl
      · rw [ih (acc ++ [_]), ih ([] ++ [_]), Option.map_map]
        congr 1
        funext cr
        simp
    | notq =>
      simp only [matchToks]
      split
      · rfl
      · rw [ih (acc ++ [_]), ih ([] ++ [_]), Option.map_map]
        congr 1
        funext cr
        simp

theorem matchPat_rule3_allNone {role content : List Char}
    (hrole : ∀ c ∈ role, isPyWord c = true) (hrne : role ≠ [])
    (hcq : ∀ c ∈ content, (c != '"') = true) (hcne : content ≠ []) :
    matchPat rule3.pat (allNoneConstruct role content) = some ([role, content], []) := by
  unfold matchPat allNoneConstruct
  simp only [rule3, List.append_assoc]
  rw [mt_lit, mt_ws (by decide) (headNot_append (by decide)), mt_lit,
    mt_ws (by decide) (headNot_append (by decide)), mt_lit,
    mt_ws (by decide) (headNot_append (by decide)), mt_lit,
    mt_word hrole hrne (headNot_append (by decide)), mt_lit,
    mt_ws (by decide) (headNot_append (by decide)), mt_lit,
    mt_ws (by decide) (headNot_append (by decide)), mt_lit,
    mt_notq hcq hcne (headNot_of (by decide)),
    matchToks_acc_append]
  rw [(by decide : matchToks []
      [RTok.lit (("\"").data), RTok.lit ((".to_string(),").data), RTok.ws,
       RTok.lit (("name:").data), RTok.ws, RTok.lit (("None,").data), RTok.ws,
       RTok.lit (("tool_calls:").data), RTok.ws, RTok.lit (("None,").data), RTok.ws,
       RTok.lit (("tool_call_id:").data), RTok.ws, RTok.lit (("None,").data), RTok.ws,
       RTok.lit (("reasoning_content:").data), RTok.ws, RTok.lit (("None,").data), RTok.ws,
       RTok.lit (("reasoning:").data), RTok.ws, RTok.lit (("None,").data), RTok.ws,
       RTok.lit (("thought:").data), RTok.ws, RTok.lit (("None,").data), RTok.ws,
       RTok.lit (("thinking:").data), RTok.ws, RTok.lit (("None,").data), RTok.ws,
       RTok.lit (("\x7d").data)]
      (("\".to_string(), name: None, tool_calls: None, tool_call_id: None, reasoning_content: None, reasoning: None, thought: None, thinking: None, \x7d").data)
      = some ([], []))]
  simp

theorem matchPat_rule1_allNone_none {role content : List Char}
    (hrole : ∀ c ∈ role, isPyWord c = true) (hrne : role ≠ [])
    (hcq : ∀ c ∈ content, (c != '"') = true) (hcne : content ≠ []) :
    matchPat rule1.pat (allNoneConstruct role content) = none := by
  unfold matchPat allNoneConstruct
  simp only [rule1, List.append_assoc]
  rw [mt_lit, mt_ws (by decide) (headNot_append (by decide)), mt_lit,
    mt_ws (by decide) (headNot_append (by decide)), mt_lit,
    mt_ws (by decide) (headNot_append (by decide)), mt_lit,
    mt_word hrole hrne (headNot_append (by decide)), mt_lit,
    mt_ws (by decide) (headNot_append (by decide)), mt_lit,
    mt_ws (by decide) (headNot_append (by decide)), mt_lit,
    mt_notq hcq hcne (headNot_of (by decide)),
    matchToks_acc_append]
  rw [(by decide : matchToks []
      [RTok.lit (("\"").data), RTok.lit ((".to_string(),").data), RTok.ws,
       RTok.lit (("..Default::default()").data), RTok.ws, RTok.lit (("\x7d").data)]
      (("\".to_string(), name: None, tool_calls: None, tool_call_id: None, reasoning_content: None, reasoning: None, thought: None, thinking: None, \x7d").data)
      = none)]
  rfl

theorem matchPat_rule2_allNone_none {role content : List Char}
    (hrole : ∀ c ∈ role, isPyWord c = true) (hrne : role ≠ []) :
    matchPat rule2.pat (allNoneConstruct role content) = none := by
  unfold matchPat allNoneConstruct
  simp only [rule2, List.append_assoc]
  rw [mt_lit, mt_ws (by decide) (headNot_append (by decide)), mt_lit,
    mt_ws (by decide) (headNot_append (by decide)), mt_lit,
    mt_ws (by decide) (headNot_append (by decide)), mt_lit,
    mt_word hrole hrne (headNot_append (by decide)), mt_lit,
    mt_ws (by decide) (headNot_append (by decide)), mt_lit,
    mt_ws (by decide) (headNot_append (by decide))]
  exact mt_word_stop (headNot_append (by decide))

theorem role_seg {role y : List Char} {ps' : List RTok}
    (hw : ∀ c ∈ role, isPyWord c = true) :
    ∀ r', r' <:+ role → r' ≠ [] →
      matchPat (RTok.lit (("Message").data) :: RTok.ws :: RTok.lit (("\x7b").data) :: ps')
        (r' ++ ',' :: y) = none := by
  intro r' hr hne
  by_cases hp : (("Message").data) <+: (r' ++ ',' :: y)
  · rcases prefix_append_cases hp with hMr | ⟨hrM, hdrop⟩
    · obtain ⟨r'', rfl⟩ := hMr
      have hw'' : ∀ c ∈ r'', isPyWord c = true :=
        fun c hc => hw c (hr.sublist.subset (by simp [hc]))
      unfold matchPat
      rw [List.append_assoc, mt_lit]
      cases r'' with
      | nil =>
        rw [List.nil_append, mt_ws_stop (headNot_of (by decide))]
        exact mt_lit_head_ne (by decide)
      | cons d r2 =>
        have hd : isPyWord d = true := hw'' d (by simp)
        rw [List.cons_append, mt_ws_stop (headNot_of (isPyWord_not_space hd))]
        refine mt_lit_head_ne fun he => ?_
        rw [he] at hd
        exact absurd hd (by decide)
    · by_cases h7 : r'.length = 7
      · have hr7 : r' = ("Message").data := by
          have h := List.prefix_iff_eq_take.1 hrM
          rw [h7] at h
          exact h
        subst hr7
        unfold matchPat
        rw [mt_lit, mt_ws_stop (headNot_of (by decide))]
        exact mt_lit_head_ne (by decide)
      · have hlen : r'.length ≤ 7 := by simpa using hrM.length_le
        have hk7 : r'.length < 7 := lt_of_le_of_ne hlen h7
        have hne0 : ((("Message").data).drop r'.length) ≠ [] := by
          intro h0
          have hl := congrArg List.length h0
          simp at hl
          omega
        obtain ⟨c, cs, hcons⟩ := List.exists_cons_of_ne_nil hne0
        rw [hcons] at hdrop
        have hc : c = ',' := (List.cons_prefix_cons.1 hdrop).1
        have hcm : c ∈ ("Message").data := by
          have hmem : c ∈ (("Message").data).drop r'.length := by simp [hcons]
          exact (List.drop_suffix _ _).sublist.subset hmem
        rw [hc] at hcm
        exact absurd hcm (by decide)
  · exact mt_lit_none hp

theorem content_seg {content y : List Char} {ps : List RTok}
    (hM : containsSub (("Message").data) content = false) :
    ∀ c', c' <:+ content → c' ≠ [] →
      matchPat (RTok.lit (("Message").data) :: ps) (c' ++ '"' :: y) = none := by
  intro c' hc hne
  by_cases hp : (("Message").data) <+: (c' ++ '"' :: y)
  · rcases prefix_append_cases hp with hMr | ⟨hrM, hdrop⟩
    · exact absurd (containsSub_iff.2 ⟨c', hc, hMr⟩) (by simp [hM])
    · by_cases h7 : c'.length = 7
      · have hc7 : c' = ("Message").data := by
          have h := List.prefix_iff_eq_take.1 hrM
          rw [h7] at h
          exact h
        have hct : containsSub (("Message").data) content = true :=
          containsSub_iff.2 ⟨c', hc, by rw [hc7]⟩
        exact absurd hct (by simp [hM])
      · have hlen : c'.length ≤ 7 := by simpa using hrM.length_le
        have hk7 : c'.length < 7 := lt_of_le_of_ne hlen h7
        have hne0 : ((("Message").data).drop c'.length) ≠ [] := by
          intro h0
          have hl := congrArg List.length h0
          simp at hl
          omega
        obtain ⟨d, cs, hcons⟩ := List.exists_cons_of_ne_nil hne0
        rw [hcons] at hdrop
        have hd : d = '"' := (List.cons_prefix_cons.1 hdrop).1
        have hdm : d ∈ ("Message").data := by
          have hmem : d ∈ (("Message").data).drop c'.length := by simp [hcons]
          exact (List.drop_suffix _ _).sublist.subset hmem
        rw [hd] at hdm
        exact absurd hdm (by decide)
  · exact mt_lit_none hp

theorem noMatchP_allNone {role content : List Char} {pat : List RTok} {ps' : List RTok}
    (hpat : pat = RTok.lit (("Message").data) :: RTok.ws :: RTok.lit (("\x7b").data) :: ps')
    (h0 : matchPat pat (allNoneConstruct role content) = none)
    (hrole : ∀ c ∈ role, isPyWord c = true)
    (hM : containsSub (("Message").data) content = false)
    (hC0 : NoMatchP pat
      (("\".to_string(), name: None, tool_calls: None, tool_call_id: None, reasoning_content: None, reasoning: None, thought: None, thinking: None, \x7d").data)) :
    NoMatchP pat (allNoneConstruct role content) := by
  have hshape : allNoneConstruct role content
      = 'M' :: ((("essage \x7b role: Role::").data) ++ (role ++ (((", content: \"").data) ++
        (content ++ (("\".to_string(), name: None, tool_calls: None, tool_call_id: None, reasoning_content: None, reasoning: None, thought: None, thinking: None, \x7d").data))))) := by
    simp only [allNoneConstruct, List.append_assoc]
    rfl
  rw [hshape]
  refine noMatchP_cons (by rw [← hshape]; exact h0) ?_
  refine noMatchP_append ?_ ?_
  · subst hpat
    exact seg_no_head (by decide)
  refine noMatchP_append ?_ ?_
  · intro r' hr hne
    subst hpat
    exact role_seg hrole r' hr hne
  refine noMatchP_append ?_ ?_
  · subst hpat
    exact seg_no_head (by decide)
  refine noMatchP_append ?_ ?_
  · intro c' hc hne
    subst hpat
    exact content_seg hM c' hc hne
  exact hC0

/-- C4 counterexample: the claim fails when the content literal itself embeds
a construct matchable by an earlier, more general rule. With content
`Message { role: Role::User, content: B.to_string(), ..Default::default() }`
(quote-free, so a legal `[^"]+` literal), the bare-variable rule `pattern2`
rewrites inside the literal before the all-fields rule runs, so the rewriter
does not produce the canonical form with the construct's own literal — it
produces `Message::text(Role::User, "Message::text(Role::User, B)")`. -/
theorem claim_C4_counterexample :
    fix_message_construction
        (allNoneConstruct (("User").data)
          (("Message \x7b role: Role::User, content: B.to_string(), ..Default::default() \x7d").data))
      ≠ canonicalText (("User").data)
          (("Message \x7b role: Role::User, content: B.to_string(), ..Default::default() \x7d").data)
    ∧ fix_message_construction
        (allNoneConstruct (("User").data)
          (("Message \x7b role: Role::User, content: B.to_string(), ..Default::default() \x7d").data))
      = canonicalText (("User").data) (("Message::text(Role::User, B)").data) := by
  constructor
  · decide
  · decide

/-- C4 (amended): every `Message` construct listing all optional fields
explicitly as `None`, whose role is a nonempty word and whose content literal
is nonempty, quote-free and does not contain the substring `Message` (so no
rule can match inside the literal), is rewritten by the structural rewriter to
exactly the canonical two-argument form `Message::text(Role::role, "content")`
— the role is preserved, no field survives, and no more general rule's output
appears instead. Without the no-`Message` restriction the original claim is
false; see the counterexample. -/
theorem claim_C4 (role content : List Char)
    (hrole : ∀ c ∈ role, isPyWord c = true) (hrne : role ≠ [])
    (hcq : ∀ c ∈ content, (c != '"') = true) (hcne : content ≠ [])
    (hM : containsSub (("Message").data) content = false) :
    fix_message_construction (allNoneConstruct role content)
      = canonicalText role content := by
  have hnm1 : NoMatchP rule1.pat (allNoneConstruct role content) :=
    noMatchP_allNone rfl (matchPat_rule1_allNone_none hrole hrne hcq hcne) hrole hM
      (occursPat_eq_false_iff.1 (by decide))
  have hnm2 : NoMatchP rule2.pat (allNoneConstruct role content) :=
    noMatchP_allNone rfl (matchPat_rule2_allNone_none hrole hrne) hrole hM
      (occursPat_eq_false_iff.1 (by decide))
  rw [fix_eq_subs, subAll_eq_self hnm1, subAll_eq_self hnm2]
  have hm := matchPat_rule3_allNone hrole hrne hcq hcne
  have hlen : ([] : List Char).length < (allNoneConstruct role content).length := by
    simp [allNoneConstruct]
  rw [subAll_of_match hm hlen]
  have hnil : subAll rule3 [] = [] := by decide
  rw [hnil, List.append_nil]
  simp [instantiate, rule3, canonicalText]

theorem claim_C4_witness :
    fix_message_construction (allNoneConstruct (("User").data) (("hi").data))
      = canonicalText (("User").data) (("hi").data) :=
  claim_C4 (("User").data) (("hi").data) (by decide) (by decide) (by decide) (by decide)
    (by decide)

theorem matchPat_rule1_construct1 {w1 w2 w3 w4 w5 w6 w7 role content : List Char}
    (h1 : ∀ c ∈ w1, isPySpace c = true) (h2 : ∀ c ∈ w2, isPySpace c = true)
    (h3 : ∀ c ∈ w3, isPySpace c = true) (h4 : ∀ c ∈ w4, isPySpace c = true)
    (h5 : ∀ c ∈ w5, isPySpace c = true) (h6 : ∀ c ∈ w6, isPySpace c = true)
    (h7 : ∀ c ∈ w7, isPySpace c = true)
    (hrole : ∀ c ∈ role, isPyWord c = true) (hrne : role ≠ [])
    (hcq : ∀ c ∈ content, (c != '"') = true) (hcne : content ≠ []) :
    matchPat rule1.pat (construct1 w1 w2 w3 w4 w5 w6 w7 role content)
      = some ([role, content], []) := by
  unfold matchPat construct1
  simp only [rule1, List.append_assoc]
  rw [mt_lit, mt_ws h1 (headNot_append (by decide)), mt_lit,
    mt_ws h2 (headNot_append (by decide)), mt_lit,
    mt_ws h3 (headNot_append (by decide)), mt_lit,
    mt_word hrole hrne (headNot_append (by decide)), mt_lit,
    mt_ws h4 (headNot_append (by decide)), mt_lit,
    mt_ws h5 (headNot_append (by decide)), mt_lit,
    mt_notq hcq hcne (headNot_append (by decide)), mt_lit, mt_lit,
    mt_ws h6 (headNot_append (by decide)), mt_lit,
    mt_ws h7 (headNot_of (by decide)), mt_lit_last]
  simp

/-- C8: for any whitespace (spaces, tabs, newlines, ...) in the seven
inter-token slots, the construct
`Message { role: Role::User, content: "hi".to_string(), ..Default::default() }`
is rewritten by the structural rewriter to exactly
`Message::text(Role::User, "hi")`, and the composed engine reports
changed = true. -/
theorem claim_C8 (w1 w2 w3 w4 w5 w6 w7 : List Char)
    (h1 : ∀ c ∈ w1, isPySpace c = true) (h2 : ∀ c ∈ w2, isPySpace c = true)
    (h3 : ∀ c ∈ w3, isPySpace c = true) (h4 : ∀ c ∈ w4, isPySpace c = true)
    (h5 : ∀ c ∈ w5, isPySpace c = true) (h6 : ∀ c ∈ w6, isPySpace c = true)
    (h7 : ∀ c ∈ w7, isPySpace c = true) :
    fix_message_construction (construct1 w1 w2 w3 w4 w5 w6 w7 (("User").data) (("hi").data))
        = ("Message::text(Role::User, \"hi\")").data
    ∧ process (construct1 w1 w2 w3 w4 w5 w6 w7 (("User").data) (("hi").data))
        = ((("Message::text(Role::User, \"hi\")").data), true) := by
  have hm : matchPat rule1.pat
      (construct1 w1 w2 w3 w4 w5 w6 w7 (("User").data) (("hi").data))
      = some ([(("User").data), (("hi").data)], []) :=
    matchPat_rule1_construct1 h1 h2 h3 h4 h5 h6 h7 (by decide) (by decide) (by decide)
      (by decide)
  have hlen : ([] : List Char).length
      < (construct1 w1 w2 w3 w4 w5 w6 w7 (("User").data) (("hi").data)).length := by
    simp [construct1, List.length_append]
  have hsub1 : subAll rule1 (construct1 w1 w2 w3 w4 w5 w6 w7 (("User").data) (("hi").data))
      = ("Message::text(Role::User, \"hi\")").data := by
    rw [subAll_of_match hm hlen]
    decide
  have hfix : fix_message_construction
      (construct1 w1 w2 w3 w4 w5 w6 w7 (("User").data) (("hi").data))
      = ("Message::text(Role::User, \"hi\")").data := by
    rw [fix_eq_subs, hsub1]
    decide
  have htr : translate_content (("Message::text(Role::User, \"hi\")").data)
      = ("Message::text(Role::User, \"hi\")").data := by decide
  have hne : (("Message::text(Role::User, \"hi\")").data)
      ≠ construct1 w1 w2 w3 w4 w5 w6 w7 (("User").data) (("hi").data) := by
    intro he
    have hl := congrArg List.length he
    simp [construct1, List.length_append] at hl
    omega
  refine ⟨hfix, ?_⟩
  simp [process, hfix, htr, hne]

theorem claim_C8_witness :
    fix_message_construction
        (("Message \x7b role: Role::User, content: \"hi\".to_string(), ..Default::default() \x7d").data)
        = ("Message::text(Role::User, \"hi\")").data
    ∧ process
        (("Message \x7b role: Role::User, content: \"hi\".to_string(), ..Default::default() \x7d").data)
        = ((("Message::text(Role::User, \"hi\")").data), true) :=
  claim_C8 ([' ']) ([' ']) ([' ']) ([' ']) ([' ']) ([' ']) ([' '])
    (by decide) (by decide) (by decide) (by decide) (by decide) (by decide) (by decide)

theorem caps_spec : ∀ (ps : List RTok) (acc : List (List Char)) (s : List Char)
    (caps : List (List Char)) (rest : List Char),
    matchToks acc ps s = some (caps, rest) → ∃ new, caps = acc ++ new ∧ capsPred ps new := by
  intro ps
  induction ps with
  | nil =>
    intro acc s caps rest h
    rw [mt_nil, Option.some.injEq, Prod.mk.injEq] at h
    exact ⟨[], by simp [← h.1], rfl⟩
  | cons tok ps ih =>
    intro acc s caps rest h
    cases tok with
    | lit L =>
      simp only [matchToks] at h
      split at h
      · exact ih acc _ caps rest h
      · exact absurd h (by simp)
    | ws =>
      simp only [matchToks] at h
      exact ih acc _ caps rest h
    | word =>
      simp only [matchToks] at h
      split at h
      · exact absurd h (by simp)
      · next hne =>
        obtain ⟨new, hcaps, hpred⟩ := ih _ _ caps rest h
        refine ⟨s.takeWhile isPyWord :: new, by simp [hcaps], ?_⟩
        refine ⟨s.takeWhile isPyWord, new, rfl, ?_, ?_, hpred⟩
        · simpa [List.isEmpty_iff] using hne
        · intro c hc
          exact List.mem_takeWhile_imp hc
    | notq =>
      simp only [matchToks] at h
      split at h
      · exact absurd h (by simp)
      · next hne =>
        obtain ⟨new, hcaps, hpred⟩ := ih _ _ caps rest h
        refine ⟨s.takeWhile (fun c => c != '"') :: new, by simp [hcaps], ?_⟩
        refine ⟨s.takeWhile (fun c => c != '"'), new, rfl, ?_, ?_, hpred⟩
        · simpa [List.isEmpty_iff] using hne
        · intro c hc
          have h2 := List.mem_takeWhile_imp hc
          exact h2

/-- C10: the quoted-content capture of the structural patterns is `[^"]+`:
every successful match of `pattern1` or `pattern3` captures a role and a
nonempty, double-quote-free content; consequently a construct with an empty
string literal, and one whose literal contains a double quote, are left
completely unchanged by the structural rewriter. -/
theorem claim_C10 :
    (∀ (s : List Char) (caps : List (List Char)) (rest : List Char),
      matchPat rule1.pat s = some (caps, rest) →
        ∃ r c, caps = [r, c] ∧ c ≠ [] ∧ '"' ∉ c) ∧
    (∀ (s : List Char) (caps : List (List Char)) (rest : List Char),
      matchPat rule3.pat s = some (caps, rest) →
        ∃ r c, caps = [r, c] ∧ c ≠ [] ∧ '"' ∉ c) ∧
    fix_message_construction
        (("Message \x7b role: Role::User, content: \"\".to_string(), ..Default::default() \x7d").data)
      = ("Message \x7b role: Role::User, content: \"\".to_string(), ..Default::default() \x7d").data ∧
    fix_message_construction
        (("Message \x7b role: Role::User, content: \"a\\\"b\".to_string(), ..Default::default() \x7d").data)
      = ("Message \x7b role: Role::User, content: \"a\\\"b\".to_string(), ..Default::default() \x7d").data := by
  refine ⟨?_, ?_, by decide, by decide⟩ <;>
  · intro s caps rest h
    obtain ⟨new, hc, hpred⟩ := caps_spec _ [] s caps rest h
    simp only [rule1, rule3, capsPred] at hpred
    obtain ⟨u, rest1, rfl, hu, hw, v, rest2, rfl, hv, hq, hnil⟩ := hpred
    subst hnil
    refine ⟨u, v, by simp [hc], hv, fun hmem => ?_⟩
    have h2 := hq '"' hmem
    simp at h2

theorem claim_C10_witness :
    ∃ r c, ([(("User").data), (("hi").data)] : List (List Char)) = [r, c] ∧ c ≠ [] ∧ '"' ∉ c :=
  claim_C10.1
    (("Message \x7b role: Role::User, content: \"hi\".to_string(), ..Default::default() \x7d").data)
    [(("User").data), (("hi").data)] [] (by decide)

/-- C3 counterexample: the source does not attempt the all-fields-explicit
pattern first. The ordered rule list of `fix_message_construction` is
`[rule1, rule2, rule3]` (quoted-literal with `..Default::default()`, then
bare variable with `..Default::default()`, then all-fields-explicit), which
differs from the order `[rule3, rule1, rule2]` asserted by the claim. -/
theorem claim_C3_counterexample : structuralRules ≠ [rule3, rule1, rule2] := by
  decide

/-- C3 (amended): the structural rewriter attempts its rules in the order of
the source: first the quoted-literal `..Default::default()` pattern, then the
bare-variable `..Default::default()` pattern, and last the pattern
enumerating every optional field; the earlier, more general rules do not
match an all-fields-explicit construct, so the most specific rewrite is still
the one produced. -/
theorem claim_C3_amended :
    structuralRules = [rule1, rule2, rule3]
    ∧ subAll rule1 (allNoneConstruct (("User").data) (("hi").data))
        = allNoneConstruct (("User").data) (("hi").data)
    ∧ subAll rule2 (allNoneConstruct (("User").data) (("hi").data))
        = allNoneConstruct (("User").data) (("hi").data)
    ∧ fix_message_construction (allNoneConstruct (("User").data) (("hi").data))
        = canonicalText (("User").data) (("hi").data) :=
  ⟨rfl, by decide, by decide, by decide⟩
